import Mathlib

/-!
Shallow embedding of the conversation memory subsystem of src/app.py
(functions get_chat_history, store_message, clear_chat_memory and the
module-level qdrant_client and memory_fallback state), together with
theorems settling the frozen claims about it.
-/

/-- One point persisted to the Qdrant collection: the payload fields written
by store_message.  The random uuid point id and the constant placeholder
vector ([0.0] * 768) are omitted from the model: the id is fresh on every
write and the vector is a constant, so neither influences any retrieval or
deletion behaviour modelled here. -/
structure QPoint where
  chat_id : String
  role : String
  content : String
  timestamp : String
deriving DecidableEq, Repr

/-- A role/content pair: the shape stored in memory_fallback and the shape
returned by get_chat_history. -/
structure ChatMsg where
  role : String
  content : String
deriving DecidableEq, Repr

/-- A role/content/timestamp dict: the intermediate message built on the
Qdrant path of get_chat_history before the timestamp is stripped. -/
structure TMsg where
  role : String
  content : String
  timestamp : String
deriving DecidableEq, Repr

/-- The status of the module-level qdrant_client together with the remote
collection contents.  Constructor none models qdrant_client = None
(unconfigured, or initialization failed); ok db models a reachable client
whose collection holds the points db in insertion order; failing models a
configured client every call of which raises (the collection is unreachable,
so its contents are irrelevant to observable behaviour). -/
inductive Qdrant where
  | none
  | ok (db : List QPoint)
  | failing
deriving DecidableEq, Repr

/-- The mutable module state: the qdrant client/collection and the
memory_fallback dict.  A Python dict read with .get(key, []) cannot
distinguish a missing key from a key mapped to [], and the three operations
only ever read it that way, so memory_fallback is modelled as a total
function defaulting to []. -/
structure MemState where
  qdrant_client : Qdrant
  memory_fallback : String → List ChatMsg

/-- A chat identifier as the handlers receive it: Telegram delivers an
integer, other callers may pass a string; every operation keys the partition
by str(chat_id). -/
inductive ChatId where
  | int (n : Int)
  | str (s : String)
deriving DecidableEq, Repr

/-- Python str() applied to a chat identifier. -/
def ChatId.pyStr : ChatId → String
  | .int n => toString n
  | .str s => s

/-- Python slice l[-k:]: the last k elements when k > 0, and the whole list
when k = 0 (since l[-0:] is l[0:]). -/
def pySliceLast (l : List α) (k : Nat) : List α :=
  if k = 0 then l else l.drop (l.length - k)

/-- Python string comparison a <= b, lexicographic on code points: the order
used by messages.sort with the timestamp string as key. -/
def pyStrLe (a b : String) : Bool := decide (a.data ≤ b.data)

/-- Comparison of the intermediate messages by their timestamp field, as a
relation, so that a stable sort can be taken over it. -/
def tsRel (a b : TMsg) : Prop := pyStrLe a.timestamp b.timestamp = true

instance : DecidableRel tsRel := fun a b =>
  inferInstanceAs (Decidable (pyStrLe a.timestamp b.timestamp = true))

/-- Python list.sort with key timestamp is a stable ascending sort; every
stable sort computes the same list, so it is modelled by stable insertion
sort over tsRel. -/
def sortByTs (l : List TMsg) : List TMsg := l.insertionSort tsRel

/-- The scroll request issued by get_chat_history: up to n points whose
payload chat_id equals key.  Qdrant scroll pages by point id and offers no
ordering by recency or time; the model returns the matching points in the
insertion order of the collection. -/
def qdrantScroll (db : List QPoint) (key : String) (n : Nat) : List QPoint :=
  (db.filter fun p => p.chat_id == key).take n

/-- The delete request issued by clear_chat_memory: removes every point whose
payload chat_id equals key. -/
def qdrantDelete (db : List QPoint) (key : String) : List QPoint :=
  db.filter fun p => !(p.chat_id == key)

/-- Projection of a scrolled point to the intermediate dict built by
get_chat_history (role, content and timestamp payload fields). -/
def toTMsg (p : QPoint) : TMsg := ⟨p.role, p.content, p.timestamp⟩

/-- The final projection of get_chat_history: role and content only, the
timestamp dropped. -/
def stripTs (m : TMsg) : ChatMsg := ⟨m.role, m.content⟩

/-- Projection of a stored point to the role/content pair it would be
returned as. -/
def stripPoint (p : QPoint) : ChatMsg := ⟨p.role, p.content⟩

/-- The list built on the Qdrant path of get_chat_history: the scrolled
points as role/content/timestamp dicts, sorted by timestamp, then sliced to
messages[-limit:]. -/
def sortedWindow (db : List QPoint) (key : String) (limit : Nat) : List TMsg :=
  pySliceLast (sortByTs ((qdrantScroll db key (limit * 2)).map toTMsg)) limit

/-- get_chat_history(chat_id, limit=10): with a working Qdrant client, scroll
up to limit * 2 points filtered on chat_id = str(chat_id), sort them by
timestamp, and return the last limit of them as role/content pairs; when the
client is None, or the Qdrant call raises (the exception is caught), return
memory_fallback.get(str(chat_id), []). -/
def get_chat_history (s : MemState) (chat_id : ChatId) (limit : Nat := 10) :
    List ChatMsg :=
  match s.qdrant_client with
  | .ok db => (sortedWindow db chat_id.pyStr limit).map stripTs
  | _ => s.memory_fallback chat_id.pyStr

/-- store_message(chat_id, role, content).  The timestamp argument stands for
datetime.now().isoformat() taken at the start of the call.  With a working
Qdrant client the point is upserted under a fresh uuid id and the function
returns True without touching memory_fallback; when the client is None, or
the upsert raises (the exception is caught), the role/content pair is
appended to memory_fallback[str(chat_id)], the list is trimmed to its last
20 entries, and the function returns True. -/
def store_message (s : MemState) (chat_id : ChatId) (role content : String)
    (timestamp : String) : Bool × MemState :=
  match s.qdrant_client with
  | .ok db =>
      (true,
        { s with qdrant_client := Qdrant.ok (db ++ [⟨chat_id.pyStr, role, content, timestamp⟩]) })
  | _ =>
      (true, { s with memory_fallback := fun k =>
          if k = chat_id.pyStr then
            pySliceLast (s.memory_fallback chat_id.pyStr ++ [⟨role, content⟩]) 20
          else s.memory_fallback k })

/-- clear_chat_memory(chat_id): with a working Qdrant client, delete every
point whose chat_id payload equals str(chat_id) (a raising client is caught
and ignored, a None client is skipped); then reset
memory_fallback[str(chat_id)] to [] and return True.  Resetting an absent
key is observationally the update performed by the source, which only writes
[] when the key is present; under the .get(key, []) read discipline the two
are indistinguishable. -/
def clear_chat_memory (s : MemState) (chat_id : ChatId) : Bool × MemState :=
  (true,
    { qdrant_client :=
        match s.qdrant_client with
        | .ok db => .ok (qdrantDelete db chat_id.pyStr)
        | q => q,
      memory_fallback := fun k =>
        if k = chat_id.pyStr then [] else s.memory_fallback k })

/-- A sequence of store_message calls for one chat: each element of msgs is a
(role, content, timestamp) triple, applied left to right. -/
def appendAll (s : MemState) (chat_id : ChatId)
    (msgs : List (String × String × String)) : MemState :=
  msgs.foldl (fun st m => (store_message st chat_id m.1 m.2.1 m.2.2).2) s

/-- Every chat partition of the fallback dict holds at most 20 records. -/
def FbBounded (fb : String → List ChatMsg) : Prop :=
  ∀ key, (fb key).length ≤ 20

/-- Every record held in either store has non-empty content. -/
def AllNonEmpty (s : MemState) : Prop :=
  (∀ key m, m ∈ s.memory_fallback key → m.content ≠ "") ∧
  (∀ db p, s.qdrant_client = .ok db → p ∈ db → p.content ≠ "")

-- Concrete states used to instantiate the theorems.

/-- A concrete state: reachable empty Qdrant collection, empty fallback. -/
def okEmpty : MemState := ⟨.ok [], fun _ => []⟩

/-- A concrete state: Qdrant client absent, empty fallback. -/
def noneEmpty : MemState := ⟨.none, fun _ => []⟩

/-- A concrete fallback-only state whose chat partition a holds two
records. -/
def fbTwo : MemState :=
  ⟨.none, fun k => if k = "a" then [⟨"user", "hi"⟩, ⟨"assistant", "hello"⟩] else []⟩

/-- The collection contents of the state okThree: three points for chat c in
timestamp order. -/
def okThreeDb : List QPoint :=
  [⟨"c", "user", "m1", "t1"⟩, ⟨"c", "user", "m2", "t2"⟩, ⟨"c", "user", "m3", "t3"⟩]

/-- A concrete state: reachable Qdrant collection holding okThreeDb, empty
fallback. -/
def okThree : MemState := ⟨.ok okThreeDb, fun _ => []⟩

-- Helper lemmas.

theorem pyStrLe_trans {a b c : String} (h1 : pyStrLe a b = true)
    (h2 : pyStrLe b c = true) : pyStrLe a c = true := by
  unfold pyStrLe at *
  rw [decide_eq_true_iff] at *
  exact le_trans h1 h2

theorem pyStrLe_total (a b : String) : (pyStrLe a b || pyStrLe b a) = true := by
  unfold pyStrLe
  rcases le_total a.data b.data with h | h <;> simp [h]

instance : IsTrans TMsg tsRel := ⟨fun _ _ _ => pyStrLe_trans⟩

instance : IsTotal TMsg tsRel := by
  refine ⟨fun a b => ?_⟩
  rcases Bool.or_eq_true_iff.mp (pyStrLe_total a.timestamp b.timestamp) with h | h
  · exact Or.inl h
  · exact Or.inr h

theorem sortByTs_sorted (l : List TMsg) : (sortByTs l).Pairwise tsRel :=
  List.sorted_insertionSort tsRel l

theorem mem_sortByTs {a : TMsg} {l : List TMsg} : a ∈ sortByTs l ↔ a ∈ l :=
  List.mem_insertionSort tsRel

theorem pySliceLast_nil (k : Nat) : pySliceLast ([] : List α) k = [] := by
  unfold pySliceLast
  split <;> simp

theorem pySliceLast_sublist (l : List α) (k : Nat) :
    (pySliceLast l k).Sublist l := by
  unfold pySliceLast
  split
  · exact List.Sublist.refl l
  · exact List.drop_sublist _ l

theorem pySliceLast_subset (l : List α) (k : Nat) : pySliceLast l k ⊆ l :=
  (pySliceLast_sublist l k).subset

theorem pySliceLast_length_le (l : List α) (k : Nat) (hk : k ≠ 0) :
    (pySliceLast l k).length ≤ k := by
  unfold pySliceLast
  rw [if_neg hk, List.length_drop]
  omega

theorem pySliceLast_of_length_le (l : List α) (k : Nat) (h : l.length ≤ k) :
    pySliceLast l k = l := by
  unfold pySliceLast
  split
  · rfl
  · rw [show l.length - k = 0 by omega, List.drop_zero]

theorem pySliceLast_suffix (l : List α) (k : Nat) :
    ∃ pre, pre ++ pySliceLast l k = l := by
  unfold pySliceLast
  split
  · exact ⟨[], rfl⟩
  · exact ⟨l.take (l.length - k), List.take_append_drop _ l⟩

theorem pySliceLast_append_absorb (l m : List α) (k : Nat) (hk : k ≠ 0) :
    pySliceLast (pySliceLast l k ++ m) k = pySliceLast (l ++ m) k := by
  unfold pySliceLast
  rw [if_neg hk, if_neg hk, if_neg hk]
  rw [← List.drop_append_of_le_length (Nat.sub_le l.length k)]
  rw [List.drop_drop]
  congr 1
  simp only [List.length_drop, List.length_append]
  omega

theorem sortedWindow_zero (db : List QPoint) (key : String) :
    sortedWindow db key 0 = [] := rfl

-- Reduction equations for the three operations, by client status.

theorem store_message_ok (db : List QPoint) (fb : String → List ChatMsg)
    (c : ChatId) (role content ts : String) :
    store_message ⟨Qdrant.ok db, fb⟩ c role content ts
      = (true, ⟨Qdrant.ok (db ++ [⟨c.pyStr, role, content, ts⟩]), fb⟩) := rfl

theorem store_message_fb (q : Qdrant) (fb : String → List ChatMsg)
    (c : ChatId) (role content ts : String)
    (hq : q = Qdrant.none ∨ q = Qdrant.failing) :
    store_message ⟨q, fb⟩ c role content ts
      = (true, ⟨q, fun k =>
          if k = c.pyStr then pySliceLast (fb c.pyStr ++ [⟨role, content⟩]) 20
          else fb k⟩) := by
  rcases hq with rfl | rfl <;> rfl

theorem get_chat_history_ok (db : List QPoint) (fb : String → List ChatMsg)
    (c : ChatId) (k : Nat) :
    get_chat_history ⟨Qdrant.ok db, fb⟩ c k = (sortedWindow db c.pyStr k).map stripTs := rfl

theorem get_chat_history_fb (q : Qdrant) (fb : String → List ChatMsg)
    (c : ChatId) (k : Nat) (hq : q = Qdrant.none ∨ q = Qdrant.failing) :
    get_chat_history ⟨q, fb⟩ c k = fb c.pyStr := by
  rcases hq with rfl | rfl <;> rfl

theorem scroll_delete_self (db : List QPoint) (key : String) (n : Nat) :
    qdrantScroll (qdrantDelete db key) key n = [] := by
  unfold qdrantScroll qdrantDelete
  rw [List.filter_filter]
  have h : ∀ p : QPoint, ((p.chat_id == key) && !(p.chat_id == key)) = false := by
    intro p
    cases hp : p.chat_id == key <;> simp [hp]
  simp only [h, List.filter_false, List.take_nil]

theorem store_preserves_bounded (s : MemState) (c : ChatId)
    (role content ts : String) (hb : FbBounded s.memory_fallback) :
    FbBounded (store_message s c role content ts).2.memory_fallback := by
  obtain ⟨q, fb⟩ := s
  cases q with
  | ok db => exact hb
  | none =>
      intro key
      rw [store_message_fb _ _ _ _ _ _ (Or.inl rfl)]
      dsimp only
      split
      · unfold pySliceLast
        rw [if_neg (by omega), List.length_drop]
        omega
      · exact hb key
  | failing =>
      intro key
      rw [store_message_fb _ _ _ _ _ _ (Or.inr rfl)]
      dsimp only
      split
      · unfold pySliceLast
        rw [if_neg (by omega), List.length_drop]
        omega
      · exact hb key

theorem clear_preserves_bounded (s : MemState) (c : ChatId)
    (hb : FbBounded s.memory_fallback) :
    FbBounded (clear_chat_memory s c).2.memory_fallback := by
  intro key
  unfold clear_chat_memory
  dsimp only
  split
  · simp
  · exact hb key

theorem appendAll_fb (msgs : List (String × String × String)) :
    ∀ (s : MemState) (c : ChatId),
      s.qdrant_client = Qdrant.none ∨ s.qdrant_client = Qdrant.failing →
      FbBounded s.memory_fallback →
      (appendAll s c msgs).memory_fallback c.pyStr
        = pySliceLast (s.memory_fallback c.pyStr
            ++ msgs.map fun m => (⟨m.1, m.2.1⟩ : ChatMsg)) 20 := by
  induction msgs with
  | nil =>
      intro s c _ hb
      rw [show appendAll s c [] = s from rfl, List.map_nil, List.append_nil]
      exact (pySliceLast_of_length_le _ _ (hb c.pyStr)).symm
  | cons m ms ih =>
      intro s c hq hb
      obtain ⟨q, fb⟩ := s
      have hstep : appendAll ⟨q, fb⟩ c (m :: ms)
          = appendAll (store_message ⟨q, fb⟩ c m.1 m.2.1 m.2.2).2 c ms := rfl
      rw [hstep, store_message_fb _ _ _ _ _ _ hq]
      have hrec := ih ⟨q, fun k =>
          if k = c.pyStr then pySliceLast (fb c.pyStr ++ [⟨m.1, m.2.1⟩]) 20
          else fb k⟩ c hq ?_
      · rw [hrec]
        dsimp only
        rw [if_pos rfl]
        rw [pySliceLast_append_absorb _ _ _ (by omega)]
        rw [List.append_assoc]
        rfl
      · intro key
        dsimp only
        split
        · unfold pySliceLast
          rw [if_neg (by omega), List.length_drop]
          omega
        · exact hb key

-- Claim theorems.

/-- Claim C1 as stated is false at a concrete input: with a configured and
reachable Primary Store, a successful append leaves the Fallback Store
untouched, so the appended record is not present in the fallback sequence of
the chat. -/
theorem C1_counterexample :
    (store_message okEmpty (ChatId.str "a") "user" "hi" "t1").1 = true ∧
    (⟨"user", "hi"⟩ : ChatMsg) ∉
      (store_message okEmpty (ChatId.str "a") "user" "hi" "t1").2.memory_fallback "a" := by
  constructor
  · rfl
  · decide

/-- C1 (amended): store_message always acknowledges success; when the
Primary Store is configured and the write succeeds, the record is written
only to the Primary Store and memory_fallback is untouched; the record is
appended to memory_fallback (then trimmed to the last 20 entries) exactly
when the Primary Store is unconfigured or its write fails. -/
theorem C1_theorem (s : MemState) (c : ChatId) (role content ts : String) :
    (store_message s c role content ts).1 = true ∧
    (∀ db, s.qdrant_client = Qdrant.ok db →
        (store_message s c role content ts).2.qdrant_client
            = Qdrant.ok (db ++ [⟨c.pyStr, role, content, ts⟩]) ∧
        (store_message s c role content ts).2.memory_fallback = s.memory_fallback) ∧
    (s.qdrant_client = Qdrant.none ∨ s.qdrant_client = Qdrant.failing →
        (store_message s c role content ts).2.qdrant_client = s.qdrant_client ∧
        (store_message s c role content ts).2.memory_fallback c.pyStr
            = pySliceLast (s.memory_fallback c.pyStr ++ [⟨role, content⟩]) 20) := by
  obtain ⟨q, fb⟩ := s
  cases q with
  | ok db =>
      refine ⟨rfl, ?_, ?_⟩
      · intro db' hdb'
        injection hdb' with h
        subst h
        exact ⟨rfl, rfl⟩
      · rintro (h | h) <;> exact Qdrant.noConfusion h
  | none =>
      refine ⟨rfl, ?_, ?_⟩
      · intro db' hdb'
        exact Qdrant.noConfusion hdb'
      · intro _
        rw [store_message_fb _ _ _ _ _ _ (Or.inl rfl)]
        exact ⟨rfl, if_pos rfl⟩
  | failing =>
      refine ⟨rfl, ?_, ?_⟩
      · intro db' hdb'
        exact Qdrant.noConfusion hdb'
      · intro _
        rw [store_message_fb _ _ _ _ _ _ (Or.inr rfl)]
        exact ⟨rfl, if_pos rfl⟩

/-- Witness for C1_theorem at concrete inputs: against a reachable empty
collection the point lands in Qdrant and the fallback stays empty; without a
client the pair lands in the fallback. -/
theorem C1_witness :
    okEmpty.qdrant_client = Qdrant.ok [] ∧
    (store_message okEmpty (ChatId.str "a") "user" "hi" "t1").2.qdrant_client
        = Qdrant.ok [⟨"a", "user", "hi", "t1"⟩] ∧
    (store_message noneEmpty (ChatId.str "a") "user" "hi" "t1").2.memory_fallback "a"
        = [⟨"user", "hi"⟩] := by
  have h1 := ((C1_theorem okEmpty (ChatId.str "a") "user" "hi" "t1").2.1 [] rfl).1
  have h2 := ((C1_theorem noneEmpty (ChatId.str "a") "user" "hi" "t1").2.2 (Or.inl rfl)).2
  exact ⟨rfl, h1, h2.trans (by decide)⟩

/-- Claim C2 as stated is false at a concrete input: on the fallback path
get_chat_history ignores the limit, so a chat holding two records returns
both of them even when the limit is 1. -/
theorem C2_counterexample :
    get_chat_history fbTwo (ChatId.str "a") 1
        = [⟨"user", "hi"⟩, ⟨"assistant", "hello"⟩] ∧
    ¬ (get_chat_history fbTwo (ChatId.str "a") 1).length ≤ 1 := by
  constructor
  · rfl
  · decide

/-- C2 (amended): on the Primary Store path get_chat_history returns at most
limit records, namely the chronologically last limit, in ascending timestamp
order, of the up to limit * 2 records the scroll returned; on the Fallback
Store path it ignores the limit and returns the entire stored sequence of
the chat in append order. -/
theorem C2_theorem (s : MemState) (c : ChatId) (k : Nat) :
    (∀ db, s.qdrant_client = Qdrant.ok db →
        (get_chat_history s c k).length ≤ k ∧
        get_chat_history s c k = (sortedWindow db c.pyStr k).map stripTs ∧
        (sortedWindow db c.pyStr k).Pairwise tsRel ∧
        ∃ pre, pre ++ sortedWindow db c.pyStr k
            = sortByTs ((qdrantScroll db c.pyStr (k * 2)).map toTMsg)) ∧
    (s.qdrant_client = Qdrant.none ∨ s.qdrant_client = Qdrant.failing →
        get_chat_history s c k = s.memory_fallback c.pyStr) := by
  obtain ⟨q, fb⟩ := s
  constructor
  · intro db hdb
    dsimp only at hdb
    subst hdb
    refine ⟨?_, get_chat_history_ok db fb c k, ?_, pySliceLast_suffix _ _⟩
    · rcases Nat.eq_zero_or_pos k with rfl | hk
      · rw [get_chat_history_ok, sortedWindow_zero]
        simp
      · rw [get_chat_history_ok, List.length_map]
        exact pySliceLast_length_le _ _ (by omega)
    · exact (sortByTs_sorted _).sublist (pySliceLast_sublist _ _)
  · intro hq
    exact get_chat_history_fb q fb c k hq

/-- Witness for C2_theorem at concrete inputs: against the three-point
collection the window of limit 1 has at most one record, and on the fallback
state the fetch returns the stored partition itself. -/
theorem C2_witness :
    okThree.qdrant_client = Qdrant.ok okThreeDb ∧
    (get_chat_history okThree (ChatId.str "c") 1).length ≤ 1 ∧
    get_chat_history fbTwo (ChatId.str "a") 1 = fbTwo.memory_fallback "a" := by
  have h1 := ((C2_theorem okThree (ChatId.str "c") 1).1 okThreeDb rfl).1
  have h2 := (C2_theorem fbTwo (ChatId.str "a") 1).2 (Or.inl rfl)
  exact ⟨rfl, h1, h2⟩

/-- C3 (confirmed): breaking the Primary Store (every Qdrant call raises,
status failing) leaves every caller-observable outcome identical to the
unconfigured mode, and append and clear acknowledge success in every mode;
no exception escapes, since each Qdrant call of the source sits inside a
try/except whose handler falls through to the fallback action, which the
embedding reflects by total functions. -/
theorem C3_theorem (f : String → List ChatMsg) (db : List QPoint)
    (c : ChatId) (k : Nat) (role content ts : String) :
    (store_message ⟨Qdrant.failing, f⟩ c role content ts).1 = true ∧
    (store_message ⟨Qdrant.none, f⟩ c role content ts).1 = true ∧
    (store_message ⟨Qdrant.ok db, f⟩ c role content ts).1 = true ∧
    (store_message ⟨Qdrant.failing, f⟩ c role content ts).2.memory_fallback
        = (store_message ⟨Qdrant.none, f⟩ c role content ts).2.memory_fallback ∧
    get_chat_history ⟨Qdrant.failing, f⟩ c k
        = get_chat_history ⟨Qdrant.none, f⟩ c k ∧
    (clear_chat_memory ⟨Qdrant.failing, f⟩ c).1 = true ∧
    (clear_chat_memory ⟨Qdrant.ok db, f⟩ c).1 = true ∧
    (clear_chat_memory ⟨Qdrant.failing, f⟩ c).2.memory_fallback
        = (clear_chat_memory ⟨Qdrant.none, f⟩ c).2.memory_fallback :=
  ⟨rfl, rfl, rfl, rfl, rfl, rfl, rfl, rfl⟩

/-- Claim C4 as stated is false at a concrete input: with three records for
one chat and limit 1, the scroll returns the first two points of the
collection (scroll pages by point id and carries no recency ordering), so
the returned window is the second record; retrieving the two most recent
records would instead make the window the third record. -/
theorem C4_counterexample :
    get_chat_history okThree (ChatId.str "c") 1 = [⟨"user", "m2"⟩] ∧
    (⟨"user", "m3"⟩ : ChatMsg) ∉ get_chat_history okThree (ChatId.str "c") 1 := by
  constructor
  · rfl
  · decide

/-- C4 (amended): on the Primary Store path get_chat_history retrieves up to
limit * 2 records tagged with str(chat_id), in the scroll order of the store
rather than most recent first, sorts the retrieved set by timestamp
ascending, truncates to the last limit entries, and returns them as
role/content pairs; the returned window equals the chronologically last
limit records among those the store returned. -/
theorem C4_theorem (s : MemState) (c : ChatId) (k : Nat) (db : List QPoint)
    (hdb : s.qdrant_client = Qdrant.ok db) :
    (qdrantScroll db c.pyStr (k * 2)).length ≤ k * 2 ∧
    (∀ p ∈ qdrantScroll db c.pyStr (k * 2), p ∈ db ∧ p.chat_id = c.pyStr) ∧
    sortedWindow db c.pyStr k
        = pySliceLast (sortByTs ((qdrantScroll db c.pyStr (k * 2)).map toTMsg)) k ∧
    (sortByTs ((qdrantScroll db c.pyStr (k * 2)).map toTMsg)).Pairwise tsRel ∧
    get_chat_history s c k = (sortedWindow db c.pyStr k).map stripTs := by
  obtain ⟨q, fb⟩ := s
  dsimp only at hdb
  subst hdb
  refine ⟨List.length_take_le _ _, ?_, rfl, sortByTs_sorted _, get_chat_history_ok db fb c k⟩
  intro p hp
  have hp2 := List.take_subset _ _ hp
  rcases List.mem_filter.mp hp2 with ⟨hmem, hkey⟩
  exact ⟨hmem, by simpa using hkey⟩

/-- Witness for C4_theorem at a concrete input: the three-point collection
with limit 1. -/
theorem C4_witness :
    okThree.qdrant_client = Qdrant.ok okThreeDb ∧
    (qdrantScroll okThreeDb "c" 2).length ≤ 2 ∧
    get_chat_history okThree (ChatId.str "c") 1
        = (sortedWindow okThreeDb "c" 1).map stripTs := by
  have h := C4_theorem okThree (ChatId.str "c") 1 okThreeDb rfl
  exact ⟨rfl, h.1, h.2.2.2.2⟩

/-- C5 (confirmed): the 20-record bound on each fallback chat partition is
preserved by store_message and clear_chat_memory (get_chat_history performs
no state mutation at all: its embedding returns only the fetched list), and
after any sequence of appends in a fallback-routed mode the partition holds
exactly the most recent 20 appended records, oldest trimmed first. -/
theorem C5_theorem (s : MemState) (c : ChatId) (role content ts : String)
    (msgs : List (String × String × String)) :
    (FbBounded s.memory_fallback →
        FbBounded (store_message s c role content ts).2.memory_fallback) ∧
    (FbBounded s.memory_fallback →
        FbBounded (clear_chat_memory s c).2.memory_fallback) ∧
    (s.qdrant_client = Qdrant.none ∨ s.qdrant_client = Qdrant.failing →
        FbBounded s.memory_fallback →
        (appendAll s c msgs).memory_fallback c.pyStr
            = pySliceLast (s.memory_fallback c.pyStr
                ++ msgs.map fun m => (⟨m.1, m.2.1⟩ : ChatMsg)) 20) :=
  ⟨store_preserves_bounded s c role content ts,
   clear_preserves_bounded s c,
   fun hq hb => appendAll_fb msgs s c hq hb⟩

/-- Witness for C5_theorem at concrete inputs: a bounded two-record state
stays bounded after an append, and two appends on the empty unconfigured
state leave exactly those two records in the partition. -/
theorem C5_witness :
    ((store_message fbTwo (ChatId.str "a") "user" "x" "t").2.memory_fallback "a").length ≤ 20 ∧
    (appendAll noneEmpty (ChatId.str "a")
        [("user", "m1", "t1"), ("assistant", "m2", "t2")]).memory_fallback "a"
      = [⟨"user", "m1"⟩, ⟨"assistant", "m2"⟩] := by
  have hb : FbBounded fbTwo.memory_fallback := by
    intro key
    by_cases hk : key = "a" <;> simp [fbTwo, hk]
  have h1 := (C5_theorem fbTwo (ChatId.str "a") "user" "x" "t" []).1 hb "a"
  have hb2 : FbBounded noneEmpty.memory_fallback := by
    intro key
    simp [noneEmpty]
  have h2 := (C5_theorem noneEmpty (ChatId.str "a") "user" "x" "t"
      [("user", "m1", "t1"), ("assistant", "m2", "t2")]).2.2 (Or.inl rfl) hb2
  exact ⟨h1, h2.trans (by decide)⟩

/-- C6 (confirmed): clear_chat_memory followed immediately by
get_chat_history on the same chat returns the empty sequence, whichever
backend serves the fetch: a working collection no longer holds any point for
the chat, and the fallback partition was reset to the empty list. -/
theorem C6_theorem (s : MemState) (c : ChatId) (k : Nat) :
    get_chat_history (clear_chat_memory s c).2 c k = [] := by
  obtain ⟨q, fb⟩ := s
  cases q with
  | ok db =>
      have hred : (clear_chat_memory ⟨Qdrant.ok db, fb⟩ c).2
          = ⟨Qdrant.ok (qdrantDelete db c.pyStr),
             fun kk => if kk = c.pyStr then [] else fb kk⟩ := rfl
      rw [hred, get_chat_history_ok]
      unfold sortedWindow
      rw [scroll_delete_self]
      rw [show sortByTs ([].map toTMsg) = [] from rfl]
      rw [pySliceLast_nil, List.map_nil]
  | none =>
      have hred : (clear_chat_memory ⟨Qdrant.none, fb⟩ c).2
          = ⟨Qdrant.none, fun kk => if kk = c.pyStr then [] else fb kk⟩ := rfl
      rw [hred, get_chat_history_fb _ _ _ _ (Or.inl rfl)]
      simp
  | failing =>
      have hred : (clear_chat_memory ⟨Qdrant.failing, fb⟩ c).2
          = ⟨Qdrant.failing, fun kk => if kk = c.pyStr then [] else fb kk⟩ := rfl
      rw [hred, get_chat_history_fb _ _ _ _ (Or.inr rfl)]
      simp

/-- C7 (confirmed): appending a record for chat a leaves the fetch result of
every chat b with a different string key unchanged, on every backend: the
appended point carries chat_id = str(a), which the scroll filter of b
excludes, and the fallback write touches only the partition str(a).
Distinctness of identifiers is taken as distinctness of their str() images,
the keys under which every operation partitions the stores. -/
theorem C7_theorem (s : MemState) (a b : ChatId) (role content ts : String)
    (k : Nat) (hab : a.pyStr ≠ b.pyStr) :
    get_chat_history (store_message s a role content ts).2 b k
      = get_chat_history s b k := by
  obtain ⟨q, fb⟩ := s
  cases q with
  | ok db =>
      rw [store_message_ok]
      have hscroll : qdrantScroll (db ++ [⟨a.pyStr, role, content, ts⟩]) b.pyStr (k * 2)
          = qdrantScroll db b.pyStr (k * 2) := by
        unfold qdrantScroll
        rw [List.filter_append]
        have hpa : ((⟨a.pyStr, role, content, ts⟩ : QPoint).chat_id == b.pyStr) = false :=
          beq_eq_false_iff_ne.mpr hab
        simp [hpa]
      rw [get_chat_history_ok, get_chat_history_ok]
      unfold sortedWindow
      rw [hscroll]
  | none =>
      rw [store_message_fb _ _ _ _ _ _ (Or.inl rfl)]
      rw [get_chat_history_fb _ _ _ _ (Or.inl rfl), get_chat_history_fb _ _ _ _ (Or.inl rfl)]
      exact if_neg fun h => hab h.symm
  | failing =>
      rw [store_message_fb _ _ _ _ _ _ (Or.inr rfl)]
      rw [get_chat_history_fb _ _ _ _ (Or.inr rfl), get_chat_history_fb _ _ _ _ (Or.inr rfl)]
      exact if_neg fun h => hab h.symm

/-- Witness for C7_theorem at a concrete input: appending to chat b leaves
the fetch result of chat a unchanged. -/
theorem C7_witness :
    (ChatId.str "b").pyStr ≠ (ChatId.str "a").pyStr ∧
    get_chat_history (store_message fbTwo (ChatId.str "b") "user" "x" "t").2
        (ChatId.str "a") 10
      = get_chat_history fbTwo (ChatId.str "a") 10 :=
  ⟨by decide, C7_theorem fbTwo (ChatId.str "b") (ChatId.str "a") "user" "x" "t" 10 (by decide)⟩

/-- C8 (confirmed): every element of a sequence returned by get_chat_history
is exactly the role/content projection of a stored record of that chat: on
the Qdrant path the timestamp (and every other payload field) is stripped
from a stored point, and on the fallback path the stored entries already
carry only role and content. -/
theorem C8_theorem (s : MemState) (c : ChatId) (k : Nat) (m : ChatMsg)
    (hm : m ∈ get_chat_history s c k) :
    match s.qdrant_client with
    | Qdrant.ok db => m ∈ (db.filter fun p => p.chat_id == c.pyStr).map stripPoint
    | _ => m ∈ s.memory_fallback c.pyStr := by
  obtain ⟨q, fb⟩ := s
  cases q with
  | ok db =>
      rw [get_chat_history_ok] at hm
      obtain ⟨t, ht, rfl⟩ := List.mem_map.mp hm
      have ht2 := pySliceLast_subset _ _ ht
      rw [mem_sortByTs] at ht2
      obtain ⟨p, hp, rfl⟩ := List.mem_map.mp ht2
      have hp2 := List.take_subset _ _ hp
      exact List.mem_map.mpr ⟨p, hp2, rfl⟩
  | none => exact hm
  | failing => exact hm

/-- Witness for C8_theorem at a concrete input: the first record fetched
from the three-point collection is the role/content projection of a stored
point of that chat. -/
theorem C8_witness :
    (⟨"user", "m1"⟩ : ChatMsg) ∈ get_chat_history okThree (ChatId.str "c") 10 ∧
    (⟨"user", "m1"⟩ : ChatMsg)
        ∈ (okThreeDb.filter fun p => p.chat_id == "c").map stripPoint :=
  ⟨by decide, C8_theorem okThree (ChatId.str "c") 10 ⟨"user", "m1"⟩ (by decide)⟩

/-- Claim C9 as stated is false at a concrete input: store_message performs
no validation of content, so appending an empty string stores a record whose
content is the empty string. -/
theorem C9_counterexample :
    (store_message noneEmpty (ChatId.str "a") "user" "" "t1").1 = true ∧
    (⟨"user", ""⟩ : ChatMsg)
        ∈ (store_message noneEmpty (ChatId.str "a") "user" "" "t1").2.memory_fallback "a" := by
  constructor
  · rfl
  · decide

/-- C9 (amended): store_message stores the given content verbatim with no
non-emptiness check, so non-emptiness of every stored record is an invariant
only under the assumption that the caller passes non-empty content, in which
case an append preserves it in both stores. -/
theorem C9_theorem (s : MemState) (c : ChatId) (role content ts : String)
    (hs : AllNonEmpty s) (hc : content ≠ "") :
    AllNonEmpty (store_message s c role content ts).2 := by
  obtain ⟨q, fb⟩ := s
  obtain ⟨hfb, hdb⟩ := hs
  cases q with
  | ok db =>
      rw [store_message_ok]
      refine ⟨hfb, ?_⟩
      intro db' p hdb' hp
      injection hdb' with h
      subst h
      rcases List.mem_append.mp hp with h | h
      · exact hdb db p rfl h
      · rcases List.mem_singleton.mp h with rfl
        exact hc
  | none =>
      rw [store_message_fb _ _ _ _ _ _ (Or.inl rfl)]
      refine ⟨?_, ?_⟩
      · intro key m hm
        dsimp only at hm
        split at hm
        · rcases List.mem_append.mp (pySliceLast_subset _ _ hm) with h | h
          · exact hfb c.pyStr m h
          · rcases List.mem_singleton.mp h with rfl
            exact hc
        · exact hfb key m hm
      · intro db' p h hp
        exact Qdrant.noConfusion h
  | failing =>
      rw [store_message_fb _ _ _ _ _ _ (Or.inr rfl)]
      refine ⟨?_, ?_⟩
      · intro key m hm
        dsimp only at hm
        split at hm
        · rcases List.mem_append.mp (pySliceLast_subset _ _ hm) with h | h
          · exact hfb c.pyStr m h
          · rcases List.mem_singleton.mp h with rfl
            exact hc
        · exact hfb key m hm
      · intro db' p h hp
        exact Qdrant.noConfusion h

/-- Witness for C9_theorem at a concrete input: appending a non-empty
content to the empty unconfigured state keeps all stored content
non-empty. -/
theorem C9_witness :
    AllNonEmpty noneEmpty ∧ ("hi" : String) ≠ "" ∧
    AllNonEmpty (store_message noneEmpty (ChatId.str "a") "user" "hi" "t1").2 := by
  have hs : AllNonEmpty noneEmpty := by
    constructor
    · intro key m hm
      simp [noneEmpty] at hm
    · intro db p h hp
      exact Qdrant.noConfusion h
  exact ⟨hs, by decide, C9_theorem noneEmpty (ChatId.str "a") "user" "hi" "t1" hs (by decide)⟩

/-- C10 (confirmed): every operation keys the partition by str(chat_id), so
an identifier and its string coercion address the same partition and yield
identical observable results: identical fetch results, identical
acknowledgements and identical successor states. -/
theorem C10_theorem (s : MemState) (x : ChatId) (k : Nat)
    (role content ts : String) :
    get_chat_history s (ChatId.str x.pyStr) k = get_chat_history s x k ∧
    store_message s (ChatId.str x.pyStr) role content ts
        = store_message s x role content ts ∧
    clear_chat_memory s (ChatId.str x.pyStr) = clear_chat_memory s x :=
  ⟨rfl, rfl, rfl⟩

